import Mathlib

/-!
# Verification of the Archon multi-agent orchestrator core

A shallow embedding of `python/src/orchestrator/orchestrator.py`
(class `AgentOrchestrator` and its data model), with theorems settling
the behavioural claims of the specification.

Modelling conventions:
* Python `dict`s (insertion ordered) become association lists / lists of
  records keyed by their `id` field; an update of an existing key replaces
  the entry in place, a new key is appended, matching CPython semantics.
* `asyncio.Queue` is a plain FIFO queue of task identifiers: `put` appends
  to the back, `get` removes the front.  The Python queue holds `Task`
  object references aliased with the store; since task ids are the store
  keys, a queue of ids with lookup in the store is the same aliasing.
* Python floats are modelled as exact rationals (`Rat`); `datetime.now()` /
  `time.time()` readings are supplied as explicit `Nat` / `Rat` parameters.
* `uuid.uuid4()` is modelled by passing the fresh task identifier as an
  explicit argument (freshness appears as a hypothesis where needed).
* The remote adapter call `adapter.execute` is external I/O; its outcome is
  supplied as an `Except String String` parameter (error or result), and a
  coroutine step (`_worker` body iteration, `_check_dependencies` scan) is
  modelled as an atomic state transformer.
-/

namespace Orch

/-- `AgentStatus` enum of the source. -/
inductive AgentStatus where
  | idle
  | busy
  | error
  | offline
  | initializing
deriving DecidableEq, Repr

/-- `TaskPriority` enum of the source (LOW=1 .. CRITICAL=4). -/
inductive TaskPriority where
  | low
  | medium
  | high
  | critical
deriving DecidableEq, Repr

/-- Numeric value of a priority, as in the Python enum. -/
def TaskPriority.value : TaskPriority → Nat
  | .low => 1
  | .medium => 2
  | .high => 3
  | .critical => 4

/-- `TaskStatus` enum of the source. -/
inductive TaskStatus where
  | pending
  | assigned
  | inProgress
  | completed
  | failed
  | cancelled
deriving DecidableEq, Repr

/-- `AgentInfo` dataclass of the source.  `metadata` is an opaque
string-keyed map; `last_active` a nullable timestamp. -/
structure AgentInfo where
  id : String
  name : String
  provider : String
  capabilities : List String
  status : AgentStatus := .idle
  current_task : Option String := none
  tasks_completed : Nat := 0
  tasks_failed : Nat := 0
  average_response_time : Rat := 0
  last_active : Option Nat := none
  metadata : List (String × String) := []
deriving DecidableEq, Repr

/-- `Task` dataclass of the source. -/
structure Task where
  id : String
  type : String
  prompt : String
  priority : TaskPriority := .medium
  status : TaskStatus := .pending
  assigned_agent : Option String := none
  created_at : Nat
  started_at : Option Nat := none
  completed_at : Option Nat := none
  result : Option String := none
  error : Option String := none
  metadata : List (String × String) := []
  dependencies : List String := []
  retry_count : Nat := 0
  max_retries : Nat := 3
deriving DecidableEq, Repr

/-- `TaskResult` pydantic model of the source; `result` is the adapter's
result on success or the `{error: ...}` payload on failure. -/
structure TaskResult where
  task_id : String
  agent_id : String
  success : Bool
  result : Except String String
  execution_time : Rat
deriving Repr

/-- One per-provider record of `performance_metrics` (the defaultdict's
default value has all fields zero). -/
structure ProviderMetrics where
  total_tasks : Nat := 0
  successful_tasks : Nat := 0
  failed_tasks : Nat := 0
  total_time : Rat := 0
  average_time : Rat := 0
deriving DecidableEq, Repr

/-- The defaultdict default: all counters and times zero. -/
def initMetrics : ProviderMetrics := {}

/-- State held by `AgentOrchestrator.__init__` (the fields the claims
touch; `task_history` is never written by the source and `workers` holds
opaque coroutine handles, both omitted).  Adapters are opaque, so the
adapter map only records which agent ids own one. -/
structure Orchestrator where
  agents : List AgentInfo := []
  tasks : List Task := []
  task_queue : List String := []
  max_concurrent_tasks : Nat := 10
  active_tasks : Nat := 0
  performance_metrics : List (String × ProviderMetrics) := []
  agent_adapters : List String := []
  running : Bool := false
deriving DecidableEq, Repr

/-- Dict lookup `self.tasks[tid]` / `tid in self.tasks`. -/
def lookupTask (tasks : List Task) (tid : String) : Option Task :=
  tasks.find? (fun u => u.id = tid)

/-- In-place mutation of the task object stored under `t.id` (Python
mutates the shared object; here we replace the record with that id). -/
def setTask (tasks : List Task) (t : Task) : List Task :=
  tasks.map (fun u => if u.id = t.id then t else u)

/-- Dict lookup into `self.agents`. -/
def findAgent (agents : List AgentInfo) (aid : String) : Option AgentInfo :=
  agents.find? (fun a => a.id = aid)

/-- In-place mutation of the agent object stored under `a.id`. -/
def setAgent (agents : List AgentInfo) (a : AgentInfo) : List AgentInfo :=
  agents.map (fun b => if b.id = a.id then a else b)

/-- CPython dict assignment `d[k] = v`: replace in place when the key
exists, append otherwise. -/
def dictInsertTask (tasks : List Task) (t : Task) : List Task :=
  if tasks.any (fun u => u.id = t.id) then setTask tasks t else tasks ++ [t]

/-- `AgentOrchestrator._are_dependencies_met`: every listed dependency id
must be present in the store with status COMPLETED. -/
def areDependenciesMet (tasks : List Task) (t : Task) : Bool :=
  t.dependencies.all (fun dep =>
    match lookupTask tasks dep with
    | none => false
    | some d => d.status = .completed)

/-- The `Task(...)` record `submit_task` constructs: status PENDING,
retry counter 0, `max_retries` 3, and the remaining dataclass defaults. -/
def mkSubmitted (tid ttype pr : String) (prio : TaskPriority)
    (deps : List String) (now : Nat) : Task :=
  { id := tid, type := ttype, prompt := pr, priority := prio,
    created_at := now, dependencies := deps }

/-- `AgentOrchestrator.submit_task`: build the task (status PENDING,
retry 0, max_retries 3), store it, enqueue it iff its dependencies are
already met, and return the task id.  `task_id` stands for the fresh
`uuid4`, `now` for `datetime.now()`. -/
def submitTask (o : Orchestrator) (task_id : String) (task_type : String)
    (prompt : String) (priority : TaskPriority) (dependencies : List String)
    (now : Nat) : String × Orchestrator :=
  let task := mkSubmitted task_id task_type prompt priority dependencies now
  let tasks1 := dictInsertTask o.tasks task
  if areDependenciesMet tasks1 task then
    (task_id, { o with tasks := tasks1, task_queue := o.task_queue ++ [task_id] })
  else
    (task_id, { o with tasks := tasks1 })

/-- The watcher's enqueue test: PENDING, a non-empty dependency list, and
all dependencies met in the given store. -/
def watcherReady (ts : List Task) (t : Task) : Bool :=
  t.status = .pending ∧ t.dependencies ≠ [] ∧ areDependenciesMet ts t

/-- One iteration of the `for` body inside `_check_dependencies`. -/
def checkDependenciesStep (acc : Orchestrator) (task : Task) : Orchestrator :=
  if watcherReady acc.tasks task then
    { acc with task_queue := acc.task_queue ++ [task.id] }
  else acc

/-- One pass of the `AgentOrchestrator._check_dependencies` loop body: for
every stored task (snapshot order) that is PENDING, has a non-empty
dependency list and whose dependencies are all met, put it on the queue.
The loop body never mutates `self.tasks`, only the queue. -/
def checkDependenciesScan (o : Orchestrator) : Orchestrator :=
  o.tasks.foldl checkDependenciesStep o

/-- The eligibility filter of `_select_agent_for_task`: the agent is IDLE
and has the task's type or `"general"` among its capabilities. -/
def eligibleB (a : AgentInfo) (t : Task) : Bool :=
  a.status = .idle ∧ (t.type ∈ a.capabilities ∨ "general" ∈ a.capabilities)

/-- The score computed inside the candidate loop of
`_select_agent_for_task` (floats as exact rationals; `0.1` is `1/10`). -/
def codeScore (a : AgentInfo) (t : Task) : Rat :=
  let s0 : Rat := 0
  let s1 : Rat :=
    if t.type ∈ a.capabilities then s0 + 10
    else if "general" ∈ a.capabilities then s0 + 5
    else s0
  let s2 : Rat :=
    if a.tasks_completed > 0 then
      s1 + ((a.tasks_completed : Rat) /
        ((a.tasks_completed : Rat) + (a.tasks_failed : Rat))) * 5
    else s1
  let s3 : Rat :=
    if a.average_response_time > 0 then
      s2 + (1 / a.average_response_time) * 2
    else s2
  s3 - (a.tasks_completed : Rat) * (1 / 10)

/-- `candidates.sort(key=lambda x: x[1], reverse=True)` followed by
`candidates[0]`: Python's sort is stable, so the first element of the
sorted list is the earliest candidate attaining the maximal score.  This
function computes that element directly: keep the current head unless a
later candidate scores strictly higher. -/
def selectBest : List (String × Rat) → Option (String × Rat)
  | [] => none
  | c :: cs =>
    match selectBest cs with
    | none => some c
    | some b => if b.2 > c.2 then some b else some c

/-- The candidate loop body of `_select_agent_for_task`: skip unavailable
agents (`continue` on non-IDLE), skip agents with neither the task's type
nor `"general"` among their capabilities, and otherwise emit the
`(agent_id, score)` pair appended to `candidates`. -/
def candidateF (t : Task) (agent : AgentInfo) : Option (String × Rat) :=
  if agent.status ≠ .idle then none
  else if t.type ∉ agent.capabilities ∧ "general" ∉ agent.capabilities then none
  else some (agent.id, codeScore agent t)

/-- `AgentOrchestrator._select_agent_for_task`: collect `(id, score)` for
every eligible agent in registration (dict) order, and return the id of
the best-scoring candidate, earliest first on ties; `None` when no agent
is eligible. -/
def selectAgentForTask (agents : List AgentInfo) (t : Task) : Option String :=
  (selectBest (agents.filterMap (candidateF t))).map (fun c => c.1)

/-- `AgentOrchestrator._update_metrics` on one provider record. -/
def updateMetricsRecord (m : ProviderMetrics) (success : Bool)
    (execution_time : Rat) : ProviderMetrics :=
  let m1 := { m with total_tasks := m.total_tasks + 1 }
  let m2 :=
    if success then { m1 with successful_tasks := m1.successful_tasks + 1 }
    else { m1 with failed_tasks := m1.failed_tasks + 1 }
  let m3 := { m2 with total_time := m2.total_time + execution_time }
  { m3 with average_time := m3.total_time / (m3.total_tasks : Rat) }

/-- `self.performance_metrics[provider]` through the defaultdict: a
missing provider key is materialised with the zero record and the looked-up
record is then mutated in place (dict keys are unique, so updating the
first — and only — entry with this key is the dict semantics). -/
def updateMetrics (pm : List (String × ProviderMetrics)) (provider : String)
    (success : Bool) (execution_time : Rat) : List (String × ProviderMetrics) :=
  match pm with
  | [] => [(provider, updateMetricsRecord initMetrics success execution_time)]
  | e :: rest =>
    if e.1 = provider then
      (e.1, updateMetricsRecord e.2 success execution_time) :: rest
    else e :: updateMetrics rest provider success execution_time

/-- Read a provider's metrics record (defaultdict read). -/
def getMetrics (pm : List (String × ProviderMetrics)) (provider : String) :
    ProviderMetrics :=
  (((pm.find? (fun e => e.1 = provider)).map (fun e => e.2)).getD initMetrics)

/-- `AgentOrchestrator._execute_task`, with the adapter call's outcome
supplied as `outcome` and its elapsed wall time as `execution_time`.
Returns `none` exactly when the source raises (agent id missing from the
registry, or no adapter registered for it — `ValueError`), which happens
before any state mutation.  Otherwise it returns the `TaskResult` and the
orchestrator state after the success / failure branch and the `finally`
block (the transient BUSY phase is not observable afterwards):

* on success: task COMPLETED with result and `completed_at`; the agent's
  `tasks_completed` is incremented and its running average updated as
  `(avg * (n - 1) + elapsed) / n` for the new count `n`; provider metrics
  updated with a success;
* on failure: task FAILED with error and `completed_at`; the agent's
  `tasks_failed` incremented; provider metrics updated with a failure;
  then, when `retry_count < max_retries`, the task's counter is
  incremented, its status reset to PENDING, its assignment cleared and it
  is re-enqueued (the `completed_at` just written is left in place);
* always (`finally`): the agent returns to IDLE with no current task and
  a fresh `last_active`. -/
def executeTaskRun (o : Orchestrator) (task : Task) (agent_id : String)
    (outcome : Except String String) (execution_time : Rat) (now : Nat) :
    Option (TaskResult × Orchestrator) :=
  match findAgent o.agents agent_id with
  | none => none
  | some agent =>
    if agent_id ∈ o.agent_adapters then
      let agent1 := { agent with status := .busy, current_task := some task.id }
      let task1 := { task with
        status := .inProgress,
        assigned_agent := some agent_id,
        started_at := some now }
      match outcome with
      | .ok res =>
        let task2 := { task1 with
          status := .completed,
          completed_at := some now,
          result := some res }
        let n := agent1.tasks_completed + 1
        let agent2 := { agent1 with
          tasks_completed := n,
          average_response_time :=
            (agent1.average_response_time * ((n : Rat) - 1) + execution_time) /
              (n : Rat) }
        let agent3 := { agent2 with
          status := .idle,
          current_task := none,
          last_active := some now }
        some
          ({ task_id := task.id, agent_id := agent_id, success := true,
             result := .ok res, execution_time := execution_time },
           { o with
             tasks := setTask o.tasks task2,
             agents := setAgent o.agents agent3,
             performance_metrics :=
               updateMetrics o.performance_metrics agent.provider true
                 execution_time })
      | .error e =>
        let task2 := { task1 with
          status := .failed,
          error := some e,
          completed_at := some now }
        let agent2 := { agent1 with tasks_failed := agent1.tasks_failed + 1 }
        let retry := task2.retry_count < task2.max_retries
        let task3 :=
          if retry then
            { task2 with
              retry_count := task2.retry_count + 1,
              status := .pending,
              assigned_agent := none }
          else task2
        let agent3 := { agent2 with
          status := .idle,
          current_task := none,
          last_active := some now }
        some
          ({ task_id := task.id, agent_id := agent_id, success := false,
             result := .error e, execution_time := execution_time },
           { o with
             tasks := setTask o.tasks task3,
             agents := setAgent o.agents agent3,
             performance_metrics :=
               updateMetrics o.performance_metrics agent.provider false
                 execution_time,
             task_queue :=
               if retry then o.task_queue ++ [task.id] else o.task_queue })
    else none

/-- One iteration of the `AgentOrchestrator._worker` loop body.  The
first component reports the `TaskResult` when an execution happened this
iteration (`none` on: empty queue — the 1 s `get` timeout; a queue id
absent from the store — unreachable, tasks are never deleted; no eligible
agent — the task is re-appended and the worker sleeps 1 s; or the
`ValueError` of a missing adapter, swallowed by the worker's outer
`except`).  After a successful dequeue-and-execute, every stored task that
lists the executed task's id among its dependencies and whose dependencies
are now all met is put on the queue (no status or membership check —
exactly the source's loop).  `active_tasks` is incremented before the
execution and decremented in the `finally`, a net no-op for the
post-state. -/
def workerStep (o : Orchestrator) (outcome : Except String String)
    (execution_time : Rat) (now : Nat) : Option TaskResult × Orchestrator :=
  match o.task_queue with
  | [] => (none, o)
  | tid :: rest =>
    let o1 := { o with task_queue := rest }
    match lookupTask o1.tasks tid with
    | none => (none, o1)
    | some task =>
      match selectAgentForTask o1.agents task with
      | none => (none, { o1 with task_queue := o1.task_queue ++ [tid] })
      | some agent_id =>
        match executeTaskRun o1 task agent_id outcome execution_time now with
        | none => (none, o1)
        | some (result, o2) =>
          let promoted := (o2.tasks.filter (fun ot =>
            task.id ∈ ot.dependencies ∧ areDependenciesMet o2.tasks ot)).map
              (fun ot => ot.id)
          (some result, { o2 with task_queue := o2.task_queue ++ promoted })

/-- `AgentOrchestrator.register_agent`: always constructs a fresh
`AgentInfo` with the dataclass defaults (IDLE, no current task, zero
counters, zero average) and stores it under `agent_id`, overwriting any
previous record (the source only logs a warning).  The adapter map is
touched only when an adapter is passed (`if adapter:`). -/
def registerAgent (o : Orchestrator) (agent_id : String) (name : String)
    (provider : String) (capabilities : List String) (adapter : Bool)
    (metadata : Option (List (String × String))) : AgentInfo × Orchestrator :=
  let agent : AgentInfo :=
    { id := agent_id, name := name, provider := provider,
      capabilities := capabilities, metadata := metadata.getD [] }
  let agents1 :=
    if o.agents.any (fun a => a.id = agent_id) then setAgent o.agents agent
    else o.agents ++ [agent]
  let adapters1 :=
    if adapter then
      if agent_id ∈ o.agent_adapters then o.agent_adapters
      else o.agent_adapters ++ [agent_id]
    else o.agent_adapters
  (agent, { o with agents := agents1, agent_adapters := adapters1 })

/-- The requeue test inside `unregister_agent`'s loop: the task is
assigned to the departing agent and in status ASSIGNED or IN_PROGRESS. -/
def requeueCond (agent_id : String) (task : Task) : Bool :=
  task.assigned_agent = some agent_id ∧
    (task.status = .assigned ∨ task.status = .inProgress)

/-- One iteration of the `for` body inside `unregister_agent`. -/
def unregisterRequeueStep (agent_id : String) (acc : Orchestrator)
    (task : Task) : Orchestrator :=
  if requeueCond agent_id task then
    { acc with
      tasks := setTask acc.tasks
        { task with status := .pending, assigned_agent := none },
      task_queue := acc.task_queue ++ [task.id] }
  else acc

/-- `AgentOrchestrator.unregister_agent`: when the id is registered, walk
the task store and, for every task assigned to this agent in status
ASSIGNED or IN_PROGRESS, reset it to PENDING with the assignment cleared
and put it on the queue (the source defers the put to a fire-and-forget
coroutine; modelled as an immediate enqueue in store order); then delete
the agent and its adapter entry and return `true`.  Unknown id: return
`false`, state unchanged. -/
def unregisterAgent (o : Orchestrator) (agent_id : String) :
    Bool × Orchestrator :=
  if o.agents.any (fun a => a.id = agent_id) then
    let o1 := o.tasks.foldl (unregisterRequeueStep agent_id) o
    (true,
      { o1 with
        agents := o1.agents.filter (fun a => ¬ (a.id = agent_id)),
        agent_adapters := o1.agent_adapters.filter (fun x => ¬ (x = agent_id)) })
  else (false, o)

/-! ## Shared helper lemmas -/

attribute [local semireducible] Rat.add Rat.mul Rat.sub Rat.inv

/-- Replacing the record stored under `t.id` makes it the record found
under that id, provided some record with that id was stored. -/
theorem lookupTask_setTask_self (ts : List Task) (t : Task)
    (h : (lookupTask ts t.id).isSome = true) :
    lookupTask (setTask ts t) t.id = some t := by
  induction ts with
  | nil => simp [lookupTask] at h
  | cons u us ih =>
    by_cases hu : u.id = t.id
    · simp [lookupTask, setTask, hu]
    · have h1 : lookupTask (u :: us) t.id = lookupTask us t.id := by
        simp [lookupTask, List.find?_cons_of_neg, hu]
      have h2 : setTask (u :: us) t = u :: setTask us t := by
        simp [setTask, hu]
      rw [h2]
      have h3 : lookupTask (u :: setTask us t) t.id =
          lookupTask (setTask us t) t.id := by
        simp [lookupTask, List.find?_cons_of_neg, hu]
      rw [h3]
      exact ih (by rw [h1] at h; exact h)

/-- A record found under an id indeed carries that id. -/
theorem lookupTask_id (ts : List Task) (tid : String) (t : Task)
    (h : lookupTask ts tid = some t) : t.id = tid := by
  have := List.find?_some h
  simpa using this

/-- Agent-registry analogue of `lookupTask_setTask_self`. -/
theorem findAgent_setAgent_self (l : List AgentInfo) (a : AgentInfo)
    (h : (findAgent l a.id).isSome = true) :
    findAgent (setAgent l a) a.id = some a := by
  induction l with
  | nil => simp [findAgent] at h
  | cons b bs ih =>
    by_cases hb : b.id = a.id
    · simp [findAgent, setAgent, hb]
    · have h1 : findAgent (b :: bs) a.id = findAgent bs a.id := by
        simp [findAgent, List.find?_cons_of_neg, hb]
      have h2 : setAgent (b :: bs) a = b :: setAgent bs a := by
        simp [setAgent, hb]
      rw [h2]
      have h3 : findAgent (b :: setAgent bs a) a.id =
          findAgent (setAgent bs a) a.id := by
        simp [findAgent, List.find?_cons_of_neg, hb]
      rw [h3]
      exact ih (by rw [h1] at h; exact h)

/-- An agent found under an id carries that id. -/
theorem findAgent_id (l : List AgentInfo) (aid : String) (a : AgentInfo)
    (h : findAgent l aid = some a) : a.id = aid := by
  have := List.find?_some h
  simpa using this

/-- Updating one provider's metrics reads back as one record update of
that provider's (defaultdict) record. -/
theorem getMetrics_updateMetrics (pm : List (String × ProviderMetrics))
    (p : String) (s : Bool) (t : Rat) :
    getMetrics (updateMetrics pm p s t) p =
      updateMetricsRecord (getMetrics pm p) s t := by
  induction pm with
  | nil => simp [updateMetrics, getMetrics]
  | cons e rest ih =>
    by_cases he : e.1 = p
    · simp [updateMetrics, getMetrics, he]
    · have h1 : updateMetrics (e :: rest) p s t =
          e :: updateMetrics rest p s t := by
        simp [updateMetrics, he]
      have h2 : ∀ l, getMetrics (e :: l) p = getMetrics l p := by
        intro l; simp [getMetrics, List.find?_cons_of_neg, he]
      rw [h1, h2, h2]
      exact ih

/-- One metrics update preserves the additivity of the task counters and
re-establishes `average_time = total_time / total_tasks` by construction. -/
theorem updateMetricsRecord_inv (m : ProviderMetrics) (s : Bool) (t : Rat)
    (h : m.total_tasks = m.successful_tasks + m.failed_tasks) :
    (updateMetricsRecord m s t).total_tasks =
        (updateMetricsRecord m s t).successful_tasks +
          (updateMetricsRecord m s t).failed_tasks ∧
      (updateMetricsRecord m s t).average_time =
        (updateMetricsRecord m s t).total_time /
          ((updateMetricsRecord m s t).total_tasks : Rat) := by
  cases s
  · refine ⟨?_, rfl⟩
    simp [updateMetricsRecord]
    omega
  · refine ⟨?_, rfl⟩
    simp [updateMetricsRecord]
    omega

/-! ## C8 — metrics identities -/

/-- C8 (confirmed).  After every sequence of `_update_metrics` calls the
per-provider record satisfies `total_tasks = successful_tasks +
failed_tasks` and `average_time = total_time / total_tasks` (exact over
the rational model of floats; at `total_tasks = 0` both sides are `0`),
and every `_execute_task` run — successful or failed, hence each retry
attempt as well — adds exactly one to the executing agent's provider
`total_tasks`. -/
theorem c8_metrics_identity :
    (∀ (updates : List (Bool × Rat)),
      (updates.foldl (fun acc u => updateMetricsRecord acc u.1 u.2)
          initMetrics).total_tasks =
        (updates.foldl (fun acc u => updateMetricsRecord acc u.1 u.2)
            initMetrics).successful_tasks +
          (updates.foldl (fun acc u => updateMetricsRecord acc u.1 u.2)
              initMetrics).failed_tasks ∧
      (updates.foldl (fun acc u => updateMetricsRecord acc u.1 u.2)
          initMetrics).average_time =
        (updates.foldl (fun acc u => updateMetricsRecord acc u.1 u.2)
            initMetrics).total_time /
          ((updates.foldl (fun acc u => updateMetricsRecord acc u.1 u.2)
              initMetrics).total_tasks : Rat)) ∧
    (∀ (o : Orchestrator) (task : Task) (aid : String) (ag : AgentInfo)
      (outcome : Except String String) (et : Rat) (now : Nat)
      (r : TaskResult) (o2 : Orchestrator),
      findAgent o.agents aid = some ag →
      executeTaskRun o task aid outcome et now = some (r, o2) →
      (getMetrics o2.performance_metrics ag.provider).total_tasks =
        (getMetrics o.performance_metrics ag.provider).total_tasks + 1) := by
  constructor
  · intro updates
    suffices h : ∀ (l : List (Bool × Rat)) (m : ProviderMetrics),
        m.total_tasks = m.successful_tasks + m.failed_tasks ∧
        m.average_time = m.total_time / (m.total_tasks : Rat) →
        (l.foldl (fun acc u => updateMetricsRecord acc u.1 u.2) m).total_tasks =
          (l.foldl (fun acc u => updateMetricsRecord acc u.1 u.2)
              m).successful_tasks +
            (l.foldl (fun acc u => updateMetricsRecord acc u.1 u.2)
                m).failed_tasks ∧
        (l.foldl (fun acc u => updateMetricsRecord acc u.1 u.2) m).average_time =
          (l.foldl (fun acc u => updateMetricsRecord acc u.1 u.2) m).total_time /
            ((l.foldl (fun acc u => updateMetricsRecord acc u.1 u.2)
                m).total_tasks : Rat) by
      refine h updates initMetrics ⟨rfl, ?_⟩
      show (0 : Rat) = 0 / ((0 : Nat) : Rat)
      norm_num
    intro l
    induction l with
    | nil => intro m hm; simpa using hm
    | cons u us ih =>
      intro m hm
      simp only [List.foldl_cons]
      exact ih _ (updateMetricsRecord_inv m u.1 u.2 hm.1)
  · intro o task aid ag outcome et now r o2 hfind hrun
    rw [executeTaskRun.eq_def, hfind] at hrun
    dsimp only at hrun
    by_cases hmem : aid ∈ o.agent_adapters
    · rw [if_pos hmem] at hrun
      cases outcome with
      | ok res =>
        simp only [Option.some.injEq, Prod.mk.injEq] at hrun
        obtain ⟨-, ho2⟩ := hrun
        rw [← ho2]
        simp [getMetrics_updateMetrics, updateMetricsRecord]
      | error e =>
        simp only [Option.some.injEq, Prod.mk.injEq] at hrun
        obtain ⟨-, ho2⟩ := hrun
        rw [← ho2]
        simp [getMetrics_updateMetrics, updateMetricsRecord]
    · rw [if_neg hmem] at hrun
      exact absurd hrun (by simp)

/-- Witness for C8 at concrete inputs: two updates (one success taking
3 s, one failure taking 1 s) and one concrete failed execution. -/
theorem c8_metrics_identity_witness :
    ((([(true, (3 : Rat)), (false, 1)]).foldl
        (fun acc u => updateMetricsRecord acc u.1 u.2) initMetrics).total_tasks =
      ((([(true, (3 : Rat)), (false, 1)]).foldl
          (fun acc u => updateMetricsRecord acc u.1 u.2)
          initMetrics).successful_tasks +
        ((([(true, (3 : Rat)), (false, 1)]).foldl
            (fun acc u => updateMetricsRecord acc u.1 u.2)
            initMetrics).failed_tasks))) := by
  exact (c8_metrics_identity.1 [(true, 3), (false, 1)]).1

/-! ## C10 — re-registration constructs a fresh record -/

/-- C10 (confirmed).  `register_agent` on an id that is already registered
returns a freshly constructed record — IDLE, no current task, zero
completed/failed counters, zero average response time — and stores it
under that id, discarding the previous record's statistics and BUSY /
current-task linkage whatever they were. -/
theorem c10_reregister_fresh (o : Orchestrator)
    (aid nm pv : String) (caps : List String) (adapter : Bool)
    (md : Option (List (String × String))) (old : AgentInfo)
    (hold : findAgent o.agents aid = some old) :
    (registerAgent o aid nm pv caps adapter md).1.status = .idle ∧
    (registerAgent o aid nm pv caps adapter md).1.current_task = none ∧
    (registerAgent o aid nm pv caps adapter md).1.tasks_completed = 0 ∧
    (registerAgent o aid nm pv caps adapter md).1.tasks_failed = 0 ∧
    (registerAgent o aid nm pv caps adapter md).1.average_response_time = 0 ∧
    findAgent (registerAgent o aid nm pv caps adapter md).2.agents aid =
      some (registerAgent o aid nm pv caps adapter md).1 := by
  refine ⟨rfl, rfl, rfl, rfl, rfl, ?_⟩
  have hmem := List.mem_of_find?_eq_some hold
  have hid : old.id = aid := findAgent_id o.agents aid old hold
  have hany : o.agents.any (fun a => a.id = aid) = true := by
    rw [List.any_eq_true]
    exact ⟨old, hmem, by simp [hid]⟩
  have hagents : (registerAgent o aid nm pv caps adapter md).2.agents =
      setAgent o.agents (registerAgent o aid nm pv caps adapter md).1 := by
    simp [registerAgent, hany]
  rw [hagents]
  exact findAgent_setAgent_self o.agents _ (by
    show (findAgent o.agents aid).isSome = true
    rw [hold]
    rfl)

/-- A previously registered agent record that is BUSY and carries
non-trivial statistics (used to witness C10). -/
def exBusyAgent : AgentInfo :=
  { id := "a1"
    name := "old"
    provider := "p"
    capabilities := ["x"]
    status := .busy
    current_task := some "t9"
    tasks_completed := 7
    tasks_failed := 2
    average_response_time := 3 }

/-- An orchestrator holding only `exBusyAgent`. -/
def exC10State : Orchestrator := { agents := [exBusyAgent] }

/-- Witness for C10: re-register an id that exists with a BUSY record and
non-zero statistics; the returned record is fresh (IDLE). -/
theorem c10_reregister_fresh_witness :
    (registerAgent exC10State "a1" "new" "p" ["general"] false
        none).1.status = AgentStatus.idle :=
  (c10_reregister_fresh exC10State "a1" "new" "p" ["general"] false none
    exBusyAgent (by decide)).1

/-! ## C2 — submission with an unknown dependency id -/

/-- The freshly initialised orchestrator (`AgentOrchestrator.__init__`). -/
def exEmpty : Orchestrator := {}

/-- C2 counterexample.  Submitting a task whose dependency list names the
id `"missing"`, absent from an empty task store, is not rejected: the call
returns the task id, the task is stored as PENDING — it is merely not
enqueued.  This refutes the claim that such a submission fails with a
validation error instead of returning a task id. -/
theorem c2_counterexample :
    (submitTask exEmpty "t1" "analysis" "p" .medium ["missing"] 0).1 = "t1" ∧
    (lookupTask (submitTask exEmpty "t1" "analysis" "p" .medium ["missing"]
        0).2.tasks "t1").map (fun t => t.status) = some TaskStatus.pending ∧
    (submitTask exEmpty "t1" "analysis" "p" .medium ["missing"] 0).2.task_queue
      = [] := by
  decide

/-- C2 (corrected).  A submission whose dependency list contains an id not
present in the task store still succeeds: it returns the fresh task id and
stores the task (status PENDING, the given dependency list); the task is
only withheld from the ready queue. -/
theorem c2_submit_accepts_unknown_dep (o : Orchestrator)
    (tid ttype pr : String) (prio : TaskPriority) (deps : List String)
    (d : String) (now : Nat)
    (hfresh : lookupTask o.tasks tid = none)
    (hd : d ∈ deps) (hmiss : lookupTask o.tasks d = none) (hne : d ≠ tid) :
    (submitTask o tid ttype pr prio deps now).1 = tid ∧
    lookupTask (submitTask o tid ttype pr prio deps now).2.tasks tid =
      some (mkSubmitted tid ttype pr prio deps now) ∧
    (submitTask o tid ttype pr prio deps now).2.task_queue = o.task_queue := by
  have hany : (o.tasks.any (fun u => u.id = tid)) = false := by
    rw [List.any_eq_false]
    intro u hu
    have := List.find?_eq_none.mp hfresh u hu
    simpa using this
  have htasks1 : dictInsertTask o.tasks (mkSubmitted tid ttype pr prio deps now)
      = o.tasks ++ [mkSubmitted tid ttype pr prio deps now] := by
    simp only [dictInsertTask, mkSubmitted] at *
    rw [if_neg]
    simp only [hany]
    exact fun h => by simp at h
  have hlookmiss :
      lookupTask (o.tasks ++ [mkSubmitted tid ttype pr prio deps now]) d =
        none := by
    rw [lookupTask, List.find?_append]
    rw [lookupTask] at hmiss
    rw [hmiss]
    simp only [Option.none_or]
    rw [List.find?_eq_none]
    intro x hx
    rw [List.mem_singleton] at hx
    subst hx
    simp only [mkSubmitted, decide_eq_true_eq]
    exact fun h => hne h.symm
  have hdep : areDependenciesMet
      (o.tasks ++ [mkSubmitted tid ttype pr prio deps now])
      (mkSubmitted tid ttype pr prio deps now) = false := by
    rw [areDependenciesMet, List.all_eq_false]
    refine ⟨d, hd, ?_⟩
    rw [hlookmiss]
    simp
  have hlookup :
      lookupTask (o.tasks ++ [mkSubmitted tid ttype pr prio deps now]) tid =
        some (mkSubmitted tid ttype pr prio deps now) := by
    rw [lookupTask, List.find?_append]
    rw [lookupTask] at hfresh
    rw [hfresh]
    simp [mkSubmitted]
  have hsubmit : submitTask o tid ttype pr prio deps now =
      (tid, { o with tasks := o.tasks ++
        [mkSubmitted tid ttype pr prio deps now] }) := by
    simp only [submitTask]
    rw [htasks1, hdep]
    simp
  rw [hsubmit]
  exact ⟨rfl, hlookup, rfl⟩

/-- Witness for C2 (corrected) at the concrete unknown-dependency input. -/
theorem c2_submit_accepts_unknown_dep_witness :
    (submitTask exEmpty "t1" "analysis" "p" .medium ["missing"] 0).2.task_queue
      = exEmpty.task_queue :=
  (c2_submit_accepts_unknown_dep exEmpty "t1" "analysis" "p" .medium
    ["missing"] "missing" 0 (by decide) (by decide) (by decide)
    (by decide)).2.2

/-! ## C4 — the failure path sets `completed_at` then resets to PENDING -/

/-- An idle agent with a `"general"` capability and a registered adapter. -/
def exC4Agent : AgentInfo :=
  { id := "a1", name := "A", provider := "p", capabilities := ["general"] }

/-- A freshly submitted task (retry_count 0, max_retries 3). -/
def exC4Task : Task :=
  { id := "t1", type := "analysis", prompt := "x", created_at := 0 }

/-- Orchestrator holding `exC4Agent` (with adapter) and `exC4Task`. -/
def exC4State : Orchestrator :=
  { agents := [exC4Agent], tasks := [exC4Task], agent_adapters := ["a1"] }

/-- C4 (code bug).  Executing `exC4Task` through the failure path with
retries remaining leaves the task reset to PENDING for retry — a
non-terminal status — while `completed_at` is set (to the failure time 7):
`_execute_task` writes `completed_at` in its `except` branch and the retry
reset does not clear it, contradicting the documented invariant that
`completed` is set iff the status is terminal. -/
theorem c4_completed_set_on_retry_reset :
    (executeTaskRun exC4State exC4Task "a1" (Except.error "boom") 1
        7).map (fun p => p.2.tasks.map (fun t =>
          (t.status, t.completed_at, t.retry_count))) =
      some [(TaskStatus.pending, some 7, 1)] := by
  decide

/-! ## Selector lemmas -/

/-- `selectBest` yields a result on any non-empty candidate list. -/
theorem selectBest_ne_none (c : String × Rat) (cs : List (String × Rat)) :
    selectBest (c :: cs) ≠ none := by
  simp only [selectBest]
  cases selectBest cs with
  | none => simp
  | some b =>
    by_cases hb : b.2 > c.2
    · simp [hb]
    · simp [hb]

/-- `selectBest` returns `none` exactly on the empty candidate list. -/
theorem selectBest_none_iff (cs : List (String × Rat)) :
    selectBest cs = none ↔ cs = [] := by
  cases cs with
  | nil => simp [selectBest]
  | cons c cs =>
    constructor
    · intro h
      exact absurd h (selectBest_ne_none c cs)
    · intro h
      exact absurd h (List.cons_ne_nil c cs)

/-- The candidate `selectBest` returns splits the list into a strictly
lower-scoring prefix, the winner, and a no-higher-scoring remainder: it is
the earliest candidate attaining the maximal score — exactly the first
element of Python's stable descending sort. -/
theorem selectBest_spec :
    ∀ (cs : List (String × Rat)) (b : String × Rat), selectBest cs = some b →
    ∃ l1 l2, cs = l1 ++ b :: l2 ∧ (∀ x ∈ l1, x.2 < b.2) ∧
      ∀ x ∈ cs, x.2 ≤ b.2
  | [], b => by intro h; simp [selectBest] at h
  | c :: cs, b => by
    intro h
    simp only [selectBest] at h
    cases hs : selectBest cs with
    | none =>
      rw [hs] at h
      have hcs : cs = [] := (selectBest_none_iff cs).mp hs
      subst hcs
      cases h
      exact ⟨[], [], rfl, by simp, by simp⟩
    | some m =>
      rw [hs] at h
      dsimp only at h
      obtain ⟨l1, l2, hcs, hl1, hall⟩ := selectBest_spec cs m hs
      by_cases hm : m.2 > c.2
      · rw [if_pos hm] at h
        cases h
        refine ⟨c :: l1, l2, by rw [hcs, List.cons_append], ?_, ?_⟩
        · intro x hx
          rcases List.mem_cons.mp hx with rfl | hx2
          · exact hm
          · exact hl1 x hx2
        · intro x hx
          rcases List.mem_cons.mp hx with rfl | hx2
          · exact le_of_lt hm
          · exact hall x hx2
      · rw [if_neg hm] at h
        cases h
        refine ⟨[], cs, rfl, by simp, ?_⟩
        intro x hx
        rcases List.mem_cons.mp hx with rfl | hx2
        · exact le_refl _
        · exact le_trans (hall x hx2) (not_lt.mp hm)

/-- Decomposing `filterMap f l = l1 ++ y :: l2`: some source element maps
to `y`, and the elements before it map exactly onto `l1`. -/
theorem filterMap_eq_append_cons {α β : Type} (f : α → Option β) :
    ∀ (l : List α) (l1 : List β) (y : β) (l2 : List β),
    l.filterMap f = l1 ++ y :: l2 →
    ∃ pre a post, l = pre ++ a :: post ∧ f a = some y ∧
      pre.filterMap f = l1
  | [], l1, y, l2 => by
    intro h
    simp at h
  | a :: l, l1, y, l2 => by
    intro h
    cases hfa : f a with
    | none =>
      rw [List.filterMap_cons_none hfa] at h
      obtain ⟨pre, b, post, hl, hfb, hpre⟩ :=
        filterMap_eq_append_cons f l l1 y l2 h
      exact ⟨a :: pre, b, post, by rw [hl, List.cons_append], hfb,
        by rw [List.filterMap_cons_none hfa]; exact hpre⟩
    | some z =>
      rw [List.filterMap_cons_some hfa] at h
      cases l1 with
      | nil =>
        simp only [List.nil_append, List.cons.injEq] at h
        exact ⟨[], a, l, rfl, by rw [hfa, h.1], by simp⟩
      | cons w l1 =>
        simp only [List.cons_append, List.cons.injEq] at h
        obtain ⟨pre, b, post, hl, hfb, hpre⟩ :=
          filterMap_eq_append_cons f l l1 y l2 h.2
        exact ⟨a :: pre, b, post, by rw [hl, List.cons_append], hfb,
          by rw [List.filterMap_cons_some hfa, hpre, h.1]⟩

/-- The candidate loop emits nothing exactly for ineligible agents. -/
theorem candidateF_eq_none_iff (t : Task) (a : AgentInfo) :
    candidateF t a = none ↔ eligibleB a t = false := by
  by_cases h1 : a.status = .idle
  · by_cases h2 : t.type ∈ a.capabilities
    · simp [candidateF, eligibleB, h1, h2]
    · by_cases h3 : "general" ∈ a.capabilities
      · simp [candidateF, eligibleB, h1, h2, h3]
      · simp [candidateF, eligibleB, h1, h2, h3]
  · simp [candidateF, eligibleB, h1]

/-- For an eligible agent the candidate loop emits its id and score. -/
theorem candidateF_eq_some (t : Task) (a : AgentInfo)
    (h : eligibleB a t = true) :
    candidateF t a = some (a.id, codeScore a t) := by
  rw [eligibleB] at h
  simp only [decide_eq_true_eq] at h
  rcases h with ⟨h1, h2 | h2⟩ <;> simp [candidateF, h1, h2]

/-- Full characterisation of `_select_agent_for_task`: `none` iff no agent
is eligible; a returned id belongs to an eligible agent whose score is
maximal among eligible agents and which is the earliest such agent in
registration order (every eligible agent before it scores strictly
lower). -/
theorem selectAgent_spec (agents : List AgentInfo) (t : Task) :
    (selectAgentForTask agents t = none ↔
      ∀ a ∈ agents, eligibleB a t = false) ∧
    (∀ aid, selectAgentForTask agents t = some aid →
      ∃ pre a post, agents = pre ++ a :: post ∧ a.id = aid ∧
        eligibleB a t = true ∧
        (∀ b ∈ agents, eligibleB b t = true →
          codeScore b t ≤ codeScore a t) ∧
        (∀ b ∈ pre, eligibleB b t = true →
          codeScore b t < codeScore a t)) := by
  constructor
  · rw [selectAgentForTask]
    constructor
    · intro h
      have hc : agents.filterMap (candidateF t) = [] :=
        (selectBest_none_iff _).mp (Option.map_eq_none'.mp h)
      intro a ha
      exact (candidateF_eq_none_iff t a).mp
        (List.filterMap_eq_nil_iff.mp hc a ha)
    · intro h
      apply Option.map_eq_none'.mpr
      apply (selectBest_none_iff _).mpr
      apply List.filterMap_eq_nil_iff.mpr
      intro a ha
      exact (candidateF_eq_none_iff t a).mpr (h a ha)
  · intro aid h
    rw [selectAgentForTask] at h
    obtain ⟨b, hb, hbid⟩ := Option.map_eq_some'.mp h
    obtain ⟨l1, l2, hcs, hl1, hall⟩ := selectBest_spec _ b hb
    obtain ⟨pre, a, post, hagents, hfa, hpre⟩ :=
      filterMap_eq_append_cons (candidateF t) agents l1 b l2 hcs
    have helig : eligibleB a t = true := by
      cases he : eligibleB a t with
      | false =>
        rw [(candidateF_eq_none_iff t a).mpr he] at hfa
        cases hfa
      | true => rfl
    have hb2 : b = (a.id, codeScore a t) := by
      rw [candidateF_eq_some t a helig] at hfa
      cases hfa
      rfl
    refine ⟨pre, a, post, hagents, by rw [← hbid, hb2], helig, ?_, ?_⟩
    · intro c hc hce
      have hmem : (c.id, codeScore c t) ∈ agents.filterMap (candidateF t) :=
        List.mem_filterMap.mpr ⟨c, hc, candidateF_eq_some t c hce⟩
      have := hall _ hmem
      rw [hb2] at this
      exact this
    · intro c hc hce
      have hmem : (c.id, codeScore c t) ∈ l1 := by
        rw [← hpre]
        exact List.mem_filterMap.mpr ⟨c, hc, candidateF_eq_some t c hce⟩
      have := hl1 _ hmem
      rw [hb2] at this
      exact this

/-! ## C5 — selector determinism and tie-breaking -/

/-- An agent registered first under id `"b"` (ties with `exAgentA`). -/
def exAgentB : AgentInfo :=
  { id := "b", name := "B", provider := "p", capabilities := ["general"] }

/-- An agent registered second under id `"a"` (ties with `exAgentB`). -/
def exAgentA : AgentInfo :=
  { id := "a", name := "A", provider := "p", capabilities := ["general"] }

/-- A task whose type matches neither agent's explicit capabilities. -/
def exT : Task := { id := "t", type := "x", prompt := "", created_at := 0 }

/-- C5 counterexample.  Two eligible agents with equal scores, registered
in the order `"b"`, `"a"`: the selector returns `"b"` — the
first-registered agent — although `"a"` is lexicographically smaller, so
ties do not break on lexicographic agent id. -/
theorem c5_counterexample :
    selectAgentForTask [exAgentB, exAgentA] exT = some "b" ∧
    codeScore exAgentB exT = codeScore exAgentA exT ∧
    eligibleB exAgentA exT = true ∧ eligibleB exAgentB exT = true ∧
    ("a" : String) < "b" := by
  refine ⟨by decide, by decide, by decide, by decide, ?_⟩
  rw [String.lt_iff_toList_lt]
  decide

/-- C5 (corrected).  The selector is a pure function of the task and the
registry snapshot; it returns `none` exactly when no agent passes
eligibility, and otherwise the id of an eligible agent with maximal score
that is the *earliest registered* among the eligible agents attaining that
score (Python's stable sort breaks ties by registration order, not by
lexicographic agent id). -/
theorem c5_selector_tiebreak_registration (agents : List AgentInfo)
    (t : Task) :
    (selectAgentForTask agents t = none ↔
      ∀ a ∈ agents, eligibleB a t = false) ∧
    (∀ aid, selectAgentForTask agents t = some aid →
      ∃ pre a post, agents = pre ++ a :: post ∧ a.id = aid ∧
        eligibleB a t = true ∧
        (∀ b ∈ agents, eligibleB b t = true →
          codeScore b t ≤ codeScore a t) ∧
        (∀ b ∈ pre, eligibleB b t = true →
          codeScore b t < codeScore a t)) :=
  selectAgent_spec agents t

/-- Witness for C5 at the concrete tie: the characterisation applied to
the returned id `"b"`. -/
theorem c5_selector_tiebreak_registration_witness :
    ∃ pre a post, [exAgentB, exAgentA] = pre ++ a :: post ∧ a.id = "b" ∧
      eligibleB a exT = true ∧
      (∀ b ∈ [exAgentB, exAgentA], eligibleB b exT = true →
        codeScore b exT ≤ codeScore a exT) ∧
      (∀ b ∈ pre, eligibleB b exT = true →
        codeScore b exT < codeScore a exT) :=
  (c5_selector_tiebreak_registration [exAgentB, exAgentA] exT).2 "b"
    (by decide)

/-! ## C6 — eligibility and the scoring formula -/

/-- Eligibility as the claim words it: status IDLE and the task type or
`"general"` among the capabilities. -/
def specEligible (a : AgentInfo) (t : Task) : Prop :=
  a.status = .idle ∧ (t.type ∈ a.capabilities ∨ "general" ∈ a.capabilities)

instance (a : AgentInfo) (t : Task) : Decidable (specEligible a t) := by
  unfold specEligible
  infer_instance

/-- The score as the claim words it: +10 for an explicit capability match,
else +5 for a general-only match; + success_rate × 5 when completed > 0;
+ (1 / average_response_time) × 2 when positive; − 0.1 × tasks_completed. -/
def specScore (a : AgentInfo) (taskType : String) : Rat :=
  (if taskType ∈ a.capabilities then (10 : Rat) else 5) +
    (if a.tasks_completed > 0 then
      ((a.tasks_completed : Rat) /
        ((a.tasks_completed : Rat) + (a.tasks_failed : Rat))) * 5
    else 0) +
    (if a.average_response_time > 0 then (1 / a.average_response_time) * 2
    else 0) -
    (1 / 10) * (a.tasks_completed : Rat)

/-- The Boolean eligibility test agrees with the claimed eligibility. -/
theorem eligibleB_iff_specEligible (a : AgentInfo) (t : Task) :
    eligibleB a t = true ↔ specEligible a t := by
  simp [eligibleB, specEligible]

/-- On eligible agents the code's score equals the claimed formula. -/
theorem codeScore_eq_specScore (a : AgentInfo) (t : Task)
    (h : eligibleB a t = true) : codeScore a t = specScore a t.type := by
  rw [eligibleB] at h
  simp only [decide_eq_true_eq] at h
  by_cases h2 : t.type ∈ a.capabilities
  · by_cases h3 : a.tasks_completed > 0 <;>
      by_cases h4 : a.average_response_time > 0 <;>
        simp [codeScore, specScore, h2, h3, h4] <;> ring
  · have h5 : "general" ∈ a.capabilities := h.2.resolve_left h2
    by_cases h3 : a.tasks_completed > 0 <;>
      by_cases h4 : a.average_response_time > 0 <;>
        simp [codeScore, specScore, h2, h3, h4, h5] <;> ring

/-- C6 (confirmed).  The selector's candidate set is exactly the IDLE
agents carrying the task's type or `"general"`; each candidate is scored
by the claimed formula (+10 explicit / +5 general-only, + success_rate × 5
when completed > 0, + (1/average_response_time) × 2 when positive,
− 0.1 × tasks_completed, over exact rationals); the returned agent is an
eligible agent attaining the highest score, and `none` is returned iff no
agent is eligible. -/
theorem c6_selector_scoring (agents : List AgentInfo) (t : Task) :
    (∀ a : AgentInfo, eligibleB a t = true → codeScore a t =
      specScore a t.type) ∧
    (selectAgentForTask agents t = none ↔
      ∀ a ∈ agents, ¬ specEligible a t) ∧
    (∀ aid, selectAgentForTask agents t = some aid →
      ∃ a ∈ agents, a.id = aid ∧ specEligible a t ∧
        ∀ b ∈ agents, specEligible b t →
          specScore b t.type ≤ specScore a t.type) := by
  refine ⟨fun a h => codeScore_eq_specScore a t h, ?_, ?_⟩
  · rw [(selectAgent_spec agents t).1]
    constructor
    · intro h a ha hs
      have hb := (eligibleB_iff_specEligible a t).mpr hs
      rw [h a ha] at hb
      cases hb
    · intro h a ha
      cases he : eligibleB a t with
      | false => rfl
      | true => exact absurd ((eligibleB_iff_specEligible a t).mp he) (h a ha)
  · intro aid h
    obtain ⟨pre, a, post, hag, haid, helig, hmax, -⟩ :=
      (selectAgent_spec agents t).2 aid h
    refine ⟨a, ?_, haid, (eligibleB_iff_specEligible a t).mp helig, ?_⟩
    · rw [hag]
      exact List.mem_append_right _ (List.mem_cons_self _ _)
    · intro b hb hbs
      have hbe := (eligibleB_iff_specEligible b t).mpr hbs
      have hle := hmax b hb hbe
      rw [codeScore_eq_specScore b t hbe,
        codeScore_eq_specScore a t helig] at hle
      exact hle

/-- Witness for C6 at a concrete snapshot: the returned agent `"b"` is an
eligible agent of maximal claimed score. -/
theorem c6_selector_scoring_witness :
    ∃ a ∈ [exAgentB, exAgentA], a.id = "b" ∧ specEligible a exT ∧
      ∀ b ∈ [exAgentB, exAgentA], specEligible b exT →
        specScore b exT.type ≤ specScore a exT.type :=
  (c6_selector_scoring [exAgentB, exAgentA] exT).2.2 "b" (by decide)

/-! ## Execution-path helper lemmas -/

/-- A successful `_execute_task` run reports the executed task's id. -/
theorem executeTaskRun_task_id (o : Orchestrator) (task : Task) (aid : String)
    (outcome : Except String String) (et : Rat) (now : Nat) (r : TaskResult)
    (o2 : Orchestrator)
    (h : executeTaskRun o task aid outcome et now = some (r, o2)) :
    r.task_id = task.id := by
  rw [executeTaskRun.eq_def] at h
  cases hf : findAgent o.agents aid <;> rw [hf] at h
  · simp at h
  · dsimp only at h
    by_cases hmem : aid ∈ o.agent_adapters
    · rw [if_pos hmem] at h
      cases outcome <;> dsimp only at h <;>
        simp only [Option.some.injEq, Prod.mk.injEq] at h <;>
          rw [← h.1]
    · rw [if_neg hmem] at h
      simp at h

/-- `_execute_task` rewrites exactly the record of the executed task: the
post-state store is the pre-state store with one record (same id, same
`created_at`, same `max_retries`) replaced. -/
theorem executeTaskRun_setTask (o : Orchestrator) (task : Task) (aid : String)
    (outcome : Except String String) (et : Rat) (now : Nat) (r : TaskResult)
    (o2 : Orchestrator)
    (h : executeTaskRun o task aid outcome et now = some (r, o2)) :
    ∃ t2 : Task, t2.id = task.id ∧ t2.created_at = task.created_at ∧
      t2.max_retries = task.max_retries ∧ o2.tasks = setTask o.tasks t2 := by
  rw [executeTaskRun.eq_def] at h
  cases hf : findAgent o.agents aid <;> rw [hf] at h
  · simp at h
  · dsimp only at h
    by_cases hmem : aid ∈ o.agent_adapters
    · rw [if_pos hmem] at h
      cases outcome with
      | ok res =>
        dsimp only at h
        simp only [Option.some.injEq, Prod.mk.injEq] at h
        obtain ⟨-, ho2⟩ := h
        subst ho2
        exact ⟨{ task with
          status := .completed,
          assigned_agent := some aid,
          started_at := some now,
          completed_at := some now,
          result := some res }, rfl, rfl, rfl, rfl⟩
      | error e =>
        dsimp only at h
        by_cases hr : task.retry_count < task.max_retries
        · simp only [if_pos hr] at h
          simp only [Option.some.injEq, Prod.mk.injEq] at h
          obtain ⟨-, ho2⟩ := h
          subst ho2
          exact ⟨{ task with
            status := .pending,
            assigned_agent := none,
            started_at := some now,
            completed_at := some now,
            error := some e,
            retry_count := task.retry_count + 1 }, rfl, rfl, rfl, rfl⟩
        · simp only [if_neg hr] at h
          simp only [Option.some.injEq, Prod.mk.injEq] at h
          obtain ⟨-, ho2⟩ := h
          subst ho2
          exact ⟨{ task with
            status := .failed,
            assigned_agent := some aid,
            started_at := some now,
            completed_at := some now,
            error := some e }, rfl, rfl, rfl, rfl⟩
    · rw [if_neg hmem] at h
      simp at h

/-! ## C1 — dequeue order -/

/-- A LOW-priority task enqueued first. -/
def exLoTask : Task :=
  { id := "lo", type := "analysis", prompt := "", priority := .low,
    created_at := 0 }

/-- A CRITICAL-priority task enqueued second. -/
def exHiTask : Task :=
  { id := "hi", type := "analysis", prompt := "", priority := .critical,
    created_at := 1 }

/-- Both tasks ready on the queue (LOW in front), one idle eligible agent
with an adapter. -/
def exC1P : Orchestrator :=
  { agents := [exC4Agent], tasks := [exLoTask, exHiTask],
    task_queue := ["lo", "hi"], agent_adapters := ["a1"] }

/-- C1 counterexample.  With the LOW task enqueued before the CRITICAL
one, both simultaneously on the queue, a free worker and an eligible idle
agent, the worker dequeues and executes the LOW task first — the CRITICAL
task is still PENDING afterwards.  `asyncio.Queue` is a plain FIFO: the
higher-priority task is not dequeued first. -/
theorem c1_counterexample :
    (workerStep exC1P (Except.ok "r") 1 5).1.map (fun r => r.task_id) =
      some "lo" ∧
    exHiTask.priority.value > exLoTask.priority.value ∧
    "hi" ∈ exC1P.task_queue ∧ "lo" ∈ exC1P.task_queue ∧
    (lookupTask (workerStep exC1P (Except.ok "r") 1 5).2.tasks "hi").map
      (fun t => t.status) = some TaskStatus.pending := by
  exact ⟨by decide, by decide, by decide, by decide, by decide⟩

/-- C1 (corrected).  The ready queue is plain FIFO, blind to priority:
the worker always processes the task at the front of the queue; when no
agent is eligible the dequeued task is re-appended at the back; and an
executed task keeps its original `created_at` (which never influences
dequeue order). -/
theorem c1_fifo_head (o : Orchestrator) (outcome : Except String String)
    (et : Rat) (now : Nat) :
    (∀ r, (workerStep o outcome et now).1 = some r →
      o.task_queue.head? = some r.task_id) ∧
    (∀ tid rest task, o.task_queue = tid :: rest →
      lookupTask o.tasks tid = some task →
      selectAgentForTask o.agents task = none →
      (workerStep o outcome et now).2.task_queue = rest ++ [tid]) ∧
    (∀ tid rest task r o2, o.task_queue = tid :: rest →
      lookupTask o.tasks tid = some task →
      workerStep o outcome et now = (some r, o2) →
      ∀ u, lookupTask o2.tasks tid = some u →
        u.created_at = task.created_at) := by
  refine ⟨?_, ?_, ?_⟩
  · intro r hr
    rw [workerStep.eq_def] at hr
    cases hq : o.task_queue with
    | nil => rw [hq] at hr; simp at hr
    | cons tid rest =>
      rw [hq] at hr
      dsimp only at hr
      cases hl : lookupTask o.tasks tid with
      | none => rw [hl] at hr; simp at hr
      | some task =>
        rw [hl] at hr
        dsimp only at hr
        cases hs : selectAgentForTask o.agents task with
        | none => rw [hs] at hr; simp at hr
        | some aid =>
          rw [hs] at hr
          dsimp only at hr
          cases he : executeTaskRun { o with task_queue := rest } task aid
              outcome et now with
          | none => rw [he] at hr; simp at hr
          | some pr =>
            obtain ⟨result, o2x⟩ := pr
            rw [he] at hr
            dsimp only at hr
            simp only [Option.some.injEq] at hr
            have h1 : result.task_id = task.id :=
              executeTaskRun_task_id _ _ _ _ _ _ _ _ he
            have h2 : task.id = tid := lookupTask_id o.tasks tid task hl
            rw [← hr, h1, h2]
            rfl
  · intro tid rest task hq hl hs
    rw [workerStep.eq_def, hq]
    dsimp only
    rw [hl]
    dsimp only
    rw [hs]
  · intro tid rest task r o2 hq hl hw u hu
    rw [workerStep.eq_def, hq] at hw
    dsimp only at hw
    rw [hl] at hw
    dsimp only at hw
    cases hs : selectAgentForTask o.agents task with
    | none =>
      rw [hs] at hw
      dsimp only at hw
      simp at hw
    | some aid =>
      rw [hs] at hw
      dsimp only at hw
      cases he : executeTaskRun { o with task_queue := rest } task aid
          outcome et now with
      | none =>
        rw [he] at hw
        dsimp only at hw
        simp at hw
      | some pr =>
        obtain ⟨result, o2x⟩ := pr
        rw [he] at hw
        dsimp only at hw
        simp only [Prod.mk.injEq, Option.some.injEq] at hw
        obtain ⟨t2, ht2id, ht2c, -, ht2tasks⟩ :=
          executeTaskRun_setTask _ _ _ _ _ _ _ _ he
        have h2 : task.id = tid := lookupTask_id o.tasks tid task hl
        have htasks : o2.tasks = setTask o.tasks t2 := by
          rw [← hw.2]
          exact ht2tasks
        rw [htasks] at hu
        have hsome : (lookupTask o.tasks t2.id).isSome = true := by
          rw [ht2id, h2, hl]
          rfl
        have := lookupTask_setTask_self o.tasks t2 hsome
        rw [ht2id, h2] at this
        rw [this] at hu
        cases hu
        rw [ht2c]

/-- Witness for C1 at a concrete single-task queue: the result's task id
is the queue head. -/
theorem c1_fifo_head_witness :
    (workerStep exC1P (Except.ok "r") 1 5).2.task_queue = ["hi"] ∧
    exC1P.task_queue.head? = some
      (((workerStep exC1P (Except.ok "r") 1 5).1.getD
        { task_id := "", agent_id := "", success := false,
          result := Except.error "", execution_time := 0 }).task_id) := by
  refine ⟨by decide, ?_⟩
  exact (c1_fifo_head exC1P (Except.ok "r") 1 5).1 _ rfl

/-! ## C7 — retry case analysis and the execution bound -/

/-- C7 (corrected).  Each failed execution follows exactly the claimed
case analysis — increment `retry_count`, reset to PENDING, clear the
assignment and requeue when `retry_count < max_retries`, else leave the
task FAILED with no requeue — so `retry_count` never exceeds
`max_retries`.  (The total number of executions, however, is not bounded
by `max_retries + 1`: see the counterexample, where duplicate queue
entries re-execute a terminal task.) -/
theorem c7_retry_case_analysis (o : Orchestrator) (task : Task)
    (aid : String) (e : String) (et : Rat) (now : Nat) (r : TaskResult)
    (o2 : Orchestrator)
    (hstore : lookupTask o.tasks task.id = some task)
    (hrun : executeTaskRun o task aid (Except.error e) et now =
      some (r, o2)) :
    (task.retry_count < task.max_retries →
      lookupTask o2.tasks task.id = some { task with
        status := .pending,
        assigned_agent := none,
        started_at := some now,
        completed_at := some now,
        error := some e,
        retry_count := task.retry_count + 1 } ∧
      o2.task_queue = o.task_queue ++ [task.id]) ∧
    (¬ task.retry_count < task.max_retries →
      lookupTask o2.tasks task.id = some { task with
        status := .failed,
        assigned_agent := some aid,
        started_at := some now,
        completed_at := some now,
        error := some e } ∧
      o2.task_queue = o.task_queue) ∧
    (task.retry_count ≤ task.max_retries →
      ∀ u, lookupTask o2.tasks task.id = some u →
        u.retry_count ≤ u.max_retries) := by
  have hsome : (lookupTask o.tasks task.id).isSome = true := by
    rw [hstore]; rfl
  rw [executeTaskRun.eq_def] at hrun
  cases hf : findAgent o.agents aid <;> rw [hf] at hrun
  · simp at hrun
  · dsimp only at hrun
    by_cases hmem : aid ∈ o.agent_adapters
    · rw [if_pos hmem] at hrun
      by_cases hr : task.retry_count < task.max_retries
      · simp only [if_pos hr] at hrun
        simp only [Option.some.injEq, Prod.mk.injEq] at hrun
        obtain ⟨-, ho2⟩ := hrun
        have hlk : lookupTask o2.tasks task.id = some { task with
            status := .pending,
            assigned_agent := none,
            started_at := some now,
            completed_at := some now,
            error := some e,
            retry_count := task.retry_count + 1 } := by
          rw [← ho2]
          dsimp only
          exact lookupTask_setTask_self o.tasks _ hsome
        refine ⟨fun _ => ⟨hlk, ?_⟩, fun hnr => absurd hr hnr,
          fun hle u hu => ?_⟩
        · rw [← ho2]
        · rw [hlk] at hu
          cases hu
          exact hr
      · simp only [if_neg hr] at hrun
        simp only [Option.some.injEq, Prod.mk.injEq] at hrun
        obtain ⟨-, ho2⟩ := hrun
        have hlk : lookupTask o2.tasks task.id = some { task with
            status := .failed,
            assigned_agent := some aid,
            started_at := some now,
            completed_at := some now,
            error := some e } := by
          rw [← ho2]
          dsimp only
          exact lookupTask_setTask_self o.tasks _ hsome
        refine ⟨fun hlt => absurd hlt hr, fun _ => ⟨hlk, ?_⟩,
          fun hle u hu => ?_⟩
        · rw [← ho2]
        · rw [hlk] at hu
          cases hu
          exact hle
    · rw [if_neg hmem] at hrun
      simp at hrun

/-- The concrete failed run of `exC4Task` on `exC4State` (used as the C7
witness input). -/
def exC7w : TaskResult × Orchestrator :=
  (executeTaskRun exC4State exC4Task "a1" (Except.error "boom") 1 7).getD
    ({ task_id := "", agent_id := "", success := false,
       result := Except.error "", execution_time := 0 }, {})

/-- Witness for C7: the retry branch at a concrete failed execution with
retries remaining. -/
theorem c7_retry_case_analysis_witness :
    exC4Task.retry_count < exC4Task.max_retries ∧
    lookupTask exC7w.2.tasks exC4Task.id = some { exC4Task with
      status := .pending,
      assigned_agent := none,
      started_at := some 7,
      completed_at := some 7,
      error := some "boom",
      retry_count := 1 } ∧
    exC7w.2.task_queue = exC4State.task_queue ++ [exC4Task.id] := by
  refine ⟨by decide, ?_, ?_⟩
  · exact ((c7_retry_case_analysis exC4State exC4Task "a1" "boom" 1 7
      exC7w.1 exC7w.2 (by decide) rfl).1 (by decide)).1
  · exact ((c7_retry_case_analysis exC4State exC4Task "a1" "boom" 1 7
      exC7w.1 exC7w.2 (by decide) rfl).1 (by decide)).2

/-- A dependency task already COMPLETED. -/
def exDepDone : Task :=
  { id := "d", type := "analysis", prompt := "", created_at := 0,
    status := .completed }

/-- A PENDING task depending on `"d"`, with `max_retries := 0` (so the
claimed bound allows exactly one execution). -/
def exC7Task : Task :=
  { id := "t", type := "analysis", prompt := "", created_at := 0,
    dependencies := ["d"], max_retries := 0 }

/-- Orchestrator with the two tasks, one idle eligible agent with an
adapter, and an empty queue. -/
def exC7State : Orchestrator :=
  { agents := [exC4Agent], tasks := [exDepDone, exC7Task],
    agent_adapters := ["a1"] }

/-- Two watcher scans with no worker in between (the watcher runs every
second): task `"t"` is enqueued twice. -/
def exC7s2 : Orchestrator :=
  checkDependenciesScan (checkDependenciesScan exC7State)

/-- First worker iteration: dequeues and executes `"t"`, which fails and
becomes terminal FAILED (no retries allowed). -/
def exC7run1 : Option TaskResult × Orchestrator :=
  workerStep exC7s2 (Except.error "x") 1 10

/-- Second worker iteration: dequeues the duplicate entry and executes the
already-FAILED `"t"` again. -/
def exC7run2 : Option TaskResult × Orchestrator :=
  workerStep exC7run1.2 (Except.error "x") 1 11

/-- C7 counterexample.  `"t"` has `max_retries = 0`, so the claim allows
at most one execution; yet after the watcher enqueued it twice the worker
executes it twice — both iterations return a `TaskResult` for `"t"`, the
provider's `total_tasks` reaches 2 and the agent's `tasks_failed`
reaches 2. -/
theorem c7_counterexample :
    (lookupTask exC7State.tasks "t").map
      (fun u => (u.retry_count, u.max_retries)) = some (0, 0) ∧
    exC7run1.1.map (fun r => r.task_id) = some "t" ∧
    exC7run2.1.map (fun r => r.task_id) = some "t" ∧
    (getMetrics exC7run2.2.performance_metrics "p").total_tasks = 2 ∧
    (findAgent exC7run2.2.agents "a1").map (fun a => a.tasks_failed) =
      some 2 := by
  exact ⟨by decide, by decide, by decide, by decide, by decide⟩

/-! ## C3 — the watcher re-enqueues without a membership check -/

/-- The `for` loop of a watcher pass leaves the store untouched and
appends to the queue the id of every task satisfying the enqueue test,
regardless of the current queue contents. -/
theorem checkScan_foldl (ts : List Task) :
    ∀ acc : Orchestrator,
    (ts.foldl checkDependenciesStep acc).tasks = acc.tasks ∧
    (ts.foldl checkDependenciesStep acc).task_queue =
      acc.task_queue ++
        (ts.filter (watcherReady acc.tasks)).map (fun t => t.id) := by
  induction ts with
  | nil => intro acc; exact ⟨rfl, by simp⟩
  | cons t ts ih =>
    intro acc
    have h1 : (checkDependenciesStep acc t).tasks = acc.tasks := by
      rw [checkDependenciesStep]
      split <;> rfl
    constructor
    · rw [List.foldl_cons, (ih (checkDependenciesStep acc t)).1, h1]
    · rw [List.foldl_cons, (ih (checkDependenciesStep acc t)).2, h1]
      by_cases hw : watcherReady acc.tasks t = true
      · have h2 : (checkDependenciesStep acc t).task_queue =
            acc.task_queue ++ [t.id] := by
          rw [checkDependenciesStep, if_pos hw]
        rw [h2]
        simp [List.filter_cons, hw, List.append_assoc]
      · have h2 : (checkDependenciesStep acc t).task_queue =
            acc.task_queue := by
          rw [checkDependenciesStep, if_neg]
          simpa using hw
        rw [h2]
        simp only [List.filter_cons, if_neg hw]

/-- C3 (corrected).  A watcher pass enqueues *every* PENDING task with a
non-empty, fully COMPLETED dependency list — the enqueue does require
status PENDING and met dependencies, but there is no check that the task
is not already enqueued, so each pass adds another queue entry for a
still-PENDING ready task and a task may occupy several queue slots. -/
theorem c3_watcher_enqueues_all_ready (o : Orchestrator) :
    (checkDependenciesScan o).tasks = o.tasks ∧
    (checkDependenciesScan o).task_queue =
      o.task_queue ++
        (o.tasks.filter (watcherReady o.tasks)).map (fun t => t.id) :=
  checkScan_foldl o.tasks o

/-- An orchestrator in which ready task `"t"` (PENDING, dependency `"d"`
COMPLETED) already occupies one queue slot. -/
def exC3State : Orchestrator :=
  { tasks := [exDepDone, exC7Task], task_queue := ["t"] }

/-- C3 counterexample.  `"t"` is already enqueued and still PENDING; one
watcher pass enqueues it again, so it occupies two queue slots at once,
refuting the at-most-one-slot claim. -/
theorem c3_counterexample :
    exC3State.task_queue.count "t" = 1 ∧
    (lookupTask exC3State.tasks "t").map (fun u => u.status) =
      some TaskStatus.pending ∧
    areDependenciesMet exC3State.tasks exC7Task = true ∧
    (checkDependenciesScan exC3State).task_queue.count "t" = 2 := by
  exact ⟨by decide, by decide, by decide, by decide⟩

/-! ## C9 — unregistering a BUSY agent -/

/-- General form of the `setTask` lookup lemma: replacing the record with
`v`'s id maps the record previously found under any id accordingly. -/
theorem lookupTask_setTask (ts : List Task) (v : Task) (tid : String)
    (u : Task) (h : lookupTask ts tid = some u) :
    lookupTask (setTask ts v) tid = some (if u.id = v.id then v else u) := by
  induction ts with
  | nil => simp [lookupTask] at h
  | cons w ws ih =>
    by_cases hw : w.id = tid
    · have h1 : lookupTask (w :: ws) tid = some w := by
        simp [lookupTask, List.find?_cons_of_pos, hw]
      rw [h1] at h
      cases h
      by_cases hv : u.id = v.id
      · have h2 : setTask (u :: ws) v = v :: setTask ws v := by
          simp [setTask, hv]
        have h3 : v.id = tid := by rw [← hv, hw]
        rw [h2, if_pos hv]
        simp [lookupTask, List.find?_cons_of_pos, h3]
      · have h2 : setTask (u :: ws) v = u :: setTask ws v := by
          simp [setTask, hv]
        rw [h2, if_neg hv]
        simp [lookupTask, List.find?_cons_of_pos, hw]
    · have h1 : lookupTask (w :: ws) tid = lookupTask ws tid := by
        simp [lookupTask, List.find?_cons_of_neg, hw]
      rw [h1] at h
      by_cases hv : w.id = v.id
      · have h2 : setTask (w :: ws) v = v :: setTask ws v := by
          simp [setTask, hv]
        have h3 : ¬ v.id = tid := by rw [← hv]; exact hw
        rw [h2]
        have h4 : lookupTask (v :: setTask ws v) tid =
            lookupTask (setTask ws v) tid := by
          simp [lookupTask, List.find?_cons_of_neg, h3]
        rw [h4]
        exact ih h
      · have h2 : setTask (w :: ws) v = w :: setTask ws v := by
          simp [setTask, hv]
        rw [h2]
        have h4 : lookupTask (w :: setTask ws v) tid =
            lookupTask (setTask ws v) tid := by
          simp [lookupTask, List.find?_cons_of_neg, hw]
        rw [h4]
        exact ih h

/-- A lookup succeeds exactly when the id occurs among the stored ids. -/
theorem lookupTask_isSome_iff (ts : List Task) (tid : String) :
    (lookupTask ts tid).isSome = true ↔
      tid ∈ ts.map (fun u => u.id) := by
  induction ts with
  | nil => simp [lookupTask]
  | cons w ws ih =>
    by_cases hw : w.id = tid
    · simp [lookupTask, List.find?_cons_of_pos, hw]
    · have h1 : lookupTask (w :: ws) tid = lookupTask ws tid := by
        simp [lookupTask, List.find?_cons_of_neg, hw]
      rw [h1]
      simp only [List.map_cons, List.mem_cons]
      constructor
      · intro h
        exact Or.inr (ih.mp h)
      · intro h
        rcases h with h | h
        · exact absurd h.symm hw
        · exact ih.mpr h

/-- `setTask` keeps the stored ids (and their order) unchanged. -/
theorem setTask_map_id (ts : List Task) (t : Task) :
    (setTask ts t).map (fun u => u.id) = ts.map (fun u => u.id) := by
  induction ts with
  | nil => rfl
  | cons w ws ih =>
    by_cases hw : w.id = t.id
    · have h1 : setTask (w :: ws) t = t :: setTask ws t := by
        simp [setTask, hw]
      rw [h1]
      simp [List.map_cons, ih, hw]
    · have h1 : setTask (w :: ws) t = w :: setTask ws t := by
        simp [setTask, hw]
      rw [h1]
      simp [List.map_cons, ih]

/-- One unregister-loop iteration keeps the stored ids unchanged. -/
theorem unregisterRequeueStep_ids (aid : String) (acc : Orchestrator)
    (t0 : Task) :
    ((unregisterRequeueStep aid acc t0).tasks).map (fun u => u.id) =
      acc.tasks.map (fun u => u.id) := by
  rw [unregisterRequeueStep]
  split
  · exact setTask_map_id acc.tasks _
  · rfl

/-- A task already reset to PENDING with cleared assignment stays that way
through the rest of the unregister loop. -/
theorem unregisterFold_preserve (aid : String) (ts : List Task) :
    ∀ (acc : Orchestrator) (tid : String),
    (∃ u, lookupTask acc.tasks tid = some u ∧ u.status = .pending ∧
      u.assigned_agent = none) →
    ∃ u, lookupTask
        ((ts.foldl (unregisterRequeueStep aid) acc)).tasks tid = some u ∧
      u.status = .pending ∧ u.assigned_agent = none := by
  induction ts with
  | nil => intro acc tid h; exact h
  | cons t ts ih =>
    intro acc tid h
    rw [List.foldl_cons]
    apply ih
    obtain ⟨u, hu, hs, ha⟩ := h
    rw [unregisterRequeueStep]
    split
    · dsimp only
      have h2 := lookupTask_setTask acc.tasks
        { t with status := .pending, assigned_agent := none } tid u hu
      refine ⟨_, h2, ?_, ?_⟩
      · split
        · rfl
        · exact hs
      · split
        · rfl
        · exact ha
    · exact ⟨u, hu, hs, ha⟩

/-- Every task satisfying the requeue test ends the unregister loop reset
to PENDING with its assignment cleared. -/
theorem unregisterFold_reach (aid : String) (ts : List Task) :
    ∀ (acc : Orchestrator) (t : Task),
    t ∈ ts → requeueCond aid t = true →
    (lookupTask acc.tasks t.id).isSome = true →
    ∃ u, lookupTask
        ((ts.foldl (unregisterRequeueStep aid) acc)).tasks t.id = some u ∧
      u.status = .pending ∧ u.assigned_agent = none := by
  induction ts with
  | nil => intro acc t ht; simp at ht
  | cons t0 ts ih =>
    intro acc t ht hcond hsome
    rw [List.foldl_cons]
    rcases List.mem_cons.mp ht with rfl | ht2
    · apply unregisterFold_preserve
      obtain ⟨u, hu⟩ := Option.isSome_iff_exists.mp hsome
      have hid : u.id = t.id := lookupTask_id acc.tasks t.id u hu
      rw [unregisterRequeueStep, if_pos hcond]
      dsimp only
      have h2 := lookupTask_setTask acc.tasks
        { t with status := .pending, assigned_agent := none } t.id u hu
      rw [if_pos hid] at h2
      exact ⟨_, h2, rfl, rfl⟩
    · apply ih _ t ht2 hcond
      rw [lookupTask_isSome_iff, unregisterRequeueStep_ids]
      exact (lookupTask_isSome_iff acc.tasks t.id).mp hsome

/-- The unregister loop does not touch agents or adapters, and appends to
the queue exactly the ids of the tasks passing the requeue test. -/
theorem unregisterFold_proj (aid : String) (ts : List Task) :
    ∀ acc : Orchestrator,
    (ts.foldl (unregisterRequeueStep aid) acc).agents = acc.agents ∧
    (ts.foldl (unregisterRequeueStep aid) acc).agent_adapters =
      acc.agent_adapters ∧
    (ts.foldl (unregisterRequeueStep aid) acc).task_queue =
      acc.task_queue ++ (ts.filter (requeueCond aid)).map (fun t => t.id) := by
  induction ts with
  | nil => intro acc; exact ⟨rfl, rfl, by simp⟩
  | cons t ts ih =>
    intro acc
    have hag : (unregisterRequeueStep aid acc t).agents = acc.agents := by
      rw [unregisterRequeueStep]; split <;> rfl
    have had : (unregisterRequeueStep aid acc t).agent_adapters =
        acc.agent_adapters := by
      rw [unregisterRequeueStep]; split <;> rfl
    refine ⟨?_, ?_, ?_⟩
    · rw [List.foldl_cons, (ih _).1, hag]
    · rw [List.foldl_cons, (ih _).2.1, had]
    · rw [List.foldl_cons, (ih _).2.2]
      by_cases hc : requeueCond aid t = true
      · have h2 : (unregisterRequeueStep aid acc t).task_queue =
            acc.task_queue ++ [t.id] := by
          rw [unregisterRequeueStep, if_pos hc]
        rw [h2]
        simp [List.filter_cons, hc, List.append_assoc]
      · have h2 : (unregisterRequeueStep aid acc t).task_queue =
            acc.task_queue := by
          rw [unregisterRequeueStep, if_neg]
          simpa using hc
        rw [h2]
        simp only [List.filter_cons, if_neg hc]

/-- C9 (confirmed).  Unregistering a registered agent — in particular a
BUSY one with a current task — returns `true`, removes the agent and its
adapter entry, and requeues every task assigned to it in status ASSIGNED
or IN_PROGRESS: each such task ends PENDING with a cleared assignment and
its id on the queue.  Unregistering an unknown id returns `false` and
leaves the state unchanged. -/
theorem c9_unregister_busy_requeues (o : Orchestrator) (aid : String)
    (ag : AgentInfo) (hfind : findAgent o.agents aid = some ag)
    (_hbusy : ag.status = .busy) (_hct : ag.current_task ≠ none) :
    (unregisterAgent o aid).1 = true ∧
    findAgent (unregisterAgent o aid).2.agents aid = none ∧
    aid ∉ (unregisterAgent o aid).2.agent_adapters ∧
    (∀ t ∈ o.tasks, t.assigned_agent = some aid →
      (t.status = .assigned ∨ t.status = .inProgress) →
      t.id ∈ (unregisterAgent o aid).2.task_queue ∧
      ∃ u, lookupTask (unregisterAgent o aid).2.tasks t.id = some u ∧
        u.status = .pending ∧ u.assigned_agent = none) ∧
    (∀ bid, findAgent o.agents bid = none →
      unregisterAgent o bid = (false, o)) := by
  have hc : (o.agents.any (fun a => a.id = aid)) = true := by
    rw [List.any_eq_true]
    exact ⟨ag, List.mem_of_find?_eq_some hfind,
      by simp [findAgent_id o.agents aid ag hfind]⟩
  have hunfold : unregisterAgent o aid =
      (true, { o.tasks.foldl (unregisterRequeueStep aid) o with
        agents := (o.tasks.foldl (unregisterRequeueStep aid) o).agents.filter
          (fun a => ¬ (a.id = aid)),
        agent_adapters :=
          (o.tasks.foldl (unregisterRequeueStep aid) o).agent_adapters.filter
            (fun x => ¬ (x = aid)) }) := by
    rw [unregisterAgent, if_pos hc]
  refine ⟨by rw [hunfold], ?_, ?_, ?_, ?_⟩
  · rw [hunfold]
    dsimp only
    rw [findAgent, List.find?_eq_none]
    intro a ha
    have := (List.mem_filter.mp ha).2
    simpa using this
  · rw [hunfold]
    dsimp only
    intro hmem
    have := (List.mem_filter.mp hmem).2
    simp at this
  · intro t ht hassigned hstatus
    have hcond : requeueCond aid t = true := by
      rw [requeueCond]
      simp [hassigned, hstatus]
    constructor
    · rw [hunfold]
      dsimp only
      rw [(unregisterFold_proj aid o.tasks o).2.2]
      refine List.mem_append_right _ ?_
      exact List.mem_map.mpr ⟨t, List.mem_filter.mpr ⟨ht, hcond⟩, rfl⟩
    · rw [hunfold]
      dsimp only
      apply unregisterFold_reach aid o.tasks o t ht hcond
      rw [lookupTask_isSome_iff]
      exact List.mem_map.mpr ⟨t, ht, rfl⟩
  · intro bid hb
    have hbany : (o.agents.any (fun a => a.id = bid)) = false := by
      rw [List.any_eq_false]
      intro a ha
      have := List.find?_eq_none.mp hb a ha
      simpa using this
    rw [unregisterAgent, if_neg]
    simp [hbany]

/-- A BUSY agent currently executing `"t1"`. -/
def exC9Agent : AgentInfo :=
  { id := "a1", name := "A", provider := "p", capabilities := ["general"],
    status := .busy, current_task := some "t1" }

/-- The IN_PROGRESS task assigned to `exC9Agent`. -/
def exC9Task : Task :=
  { id := "t1", type := "analysis", prompt := "", created_at := 0,
    status := .inProgress, assigned_agent := some "a1" }

/-- Orchestrator with the BUSY agent, its adapter and its task. -/
def exC9State : Orchestrator :=
  { agents := [exC9Agent], tasks := [exC9Task], agent_adapters := ["a1"] }

/-- Witness for C9 at a concrete BUSY agent with an IN_PROGRESS task. -/
theorem c9_unregister_busy_requeues_witness :
    (unregisterAgent exC9State "a1").1 = true ∧
    "t1" ∈ (unregisterAgent exC9State "a1").2.task_queue ∧
    ∃ u, lookupTask (unregisterAgent exC9State "a1").2.tasks "t1" =
        some u ∧ u.status = .pending ∧ u.assigned_agent = none := by
  have h := c9_unregister_busy_requeues exC9State "a1" exC9Agent
    (by decide) (by decide) (by decide)
  have h4 := h.2.2.2.1 exC9Task (by decide) (by decide) (by decide)
  exact ⟨h.1, h4.1, h4.2⟩

end Orch
